import Mathlib

/-!
Verification of the gesture-to-action decision pipeline of the DroneWave CLI
(`src/infer.py`): the decision extractor (reduction of raw detections to a
report and a top pick), the action dispatcher (substring match on the
lower-cased top class), and the fixed takeoff/land action sequences.

Confidences and bounding-box coordinates are modelled as rationals; strings
and lower-casing are modelled on the ASCII fragment (the relevant tokens
"takeoff"/"land" are ASCII).  Stateful/async behaviour (printing, drone
commands) is modelled as an explicit event trace.
-/

namespace DroneWave

/-- One raw model detection, as produced by the detector adapter:
a class label, a confidence, and a bounding box (`box.tolist()` yields a
list of coordinates, four for xyxy boxes). -/
structure Detection where
  class_label : String
  confidence : ℚ
  bbox : List ℚ
deriving DecidableEq, Repr

/-- `round(x, 2)`: rounding to two decimal places.  The spec allows either
half-even or half-away rounding at exact halves; we use Mathlib's `round`
(half-up), which agrees everywhere else. -/
def round2 (x : ℚ) : ℚ := (round (x * 100) : ℚ) / 100

/-- One entry of the report's `detections` list (`infer.py` lines 105-109):
confidence and box coordinates rounded to two decimal places. -/
structure ReportedDetection where
  class_name : String
  confidence : ℚ
  bbox : List ℚ
deriving DecidableEq, Repr

/-- The JSON report printed by `handle_detection` (lines 116-123). -/
structure DetectionReport where
  image : String
  detections : List ReportedDetection
  top_class : Option String
  top_confidence : ℚ
deriving DecidableEq, Repr

/-- Loop body of the reduction in `handle_detection` (lines 111-113):
replace the running `(highest_confidence, top_class)` only when the
detection's confidence is strictly greater. -/
def topStep (acc : ℚ × Option String) (d : Detection) : ℚ × Option String :=
  if d.confidence > acc.1 then (d.confidence, some d.class_label) else acc

/-- The reduction over the detections in input order, from a given initial
running state; the code starts it at `(0, none)` (lines 96-97). -/
def topFold (init : ℚ × Option String) (dets : List Detection) : ℚ × Option String :=
  dets.foldl topStep init

/-- The report entry built for one detection (lines 105-109). -/
def reportDetection (d : Detection) : ReportedDetection :=
  { class_name := d.class_label
    confidence := round2 d.confidence
    bbox := d.bbox.map round2 }

/-- The decision extractor: `handle_detection` lines 95-123 restricted to
its pure part.  Builds the report's detection list in input order and the
top pick by the strict-greater reduction; the printed top confidence is
rounded to two decimal places. -/
def handle_detection_extract (image_path : String) (dets : List Detection) :
    DetectionReport :=
  let top := topFold (0, none) dets
  { image := image_path
    detections := dets.map reportDetection
    top_class := top.2
    top_confidence := round2 top.1 }

/-- The vehicle command decided from the top class (spec §3). -/
inductive VehicleCommand where
  | Takeoff
  | Land
  | None
deriving DecidableEq, Repr

/-- ASCII lower-casing on code points: `A`-`Z` (65-90) map 32 up. -/
def lowerCode (n : ℕ) : ℕ := if 65 ≤ n ∧ n ≤ 90 then n + 32 else n

/-- ASCII lower-casing of one character. -/
def lowerChar (c : Char) : Char := Char.ofNat (lowerCode c.toNat)

/-- Python's `str.lower()`, modelled on the ASCII fragment. -/
def pyLower (s : String) : String := ⟨s.toList.map lowerChar⟩

/-- Python's `needle in haystack` on strings: contiguous substring
containment. -/
def pyContains (needle haystack : String) : Bool :=
  decide (needle.toList <:+: haystack.toList)

/-- The action dispatcher: the `if top_class` / substring branches of
`handle_detection` (lines 126-133), as a pure function of the optional top
class. -/
def dispatch : Option String → VehicleCommand
  | Option.none => VehicleCommand.None
  | Option.some top_class =>
    let top_class_lower := pyLower top_class
    if pyContains "takeoff" top_class_lower then VehicleCommand.Takeoff
    else if pyContains "land" top_class_lower then VehicleCommand.Land
    else VehicleCommand.None

/-- One call on the vehicle link adapter (or the fixed sleep). -/
inductive DroneAction where
  | arm
  | set_takeoff_altitude (alt : ℚ)
  | takeoff
  | land
  | sleep (seconds : ℕ)
deriving DecidableEq, Repr

/-- The `takeoff` coroutine (lines 135-142): arm, set the hard-coded
10-meter takeoff altitude, take off, then the fixed 10-second pause. -/
def takeoffSeq : List DroneAction :=
  [DroneAction.arm, DroneAction.set_takeoff_altitude 10,
   DroneAction.takeoff, DroneAction.sleep 10]

/-- The `land` coroutine (lines 144-147): land, then the fixed pause. -/
def landSeq : List DroneAction :=
  [DroneAction.land, DroneAction.sleep 10]

/-- Observable events of one CLI command: a user-facing error message, the
printed JSON report, or one vehicle-link call. -/
inductive CliEvent where
  | errorMsg (msg : String)
  | printedReport (r : DetectionReport)
  | droneAction (a : DroneAction)
deriving DecidableEq, Repr

/-- Event trace of `handle_detection` (lines 90-133): print the report,
then dispatch on the top class and run the corresponding fixed action
sequence (or nothing). -/
def handle_detection_events (image_path : String) (dets : List Detection) :
    List CliEvent :=
  let report := handle_detection_extract image_path dets
  CliEvent.printedReport report ::
    (match dispatch report.top_class with
     | VehicleCommand.Takeoff => takeoffSeq.map CliEvent.droneAction
     | VehicleCommand.Land => landSeq.map CliEvent.droneAction
     | VehicleCommand.None => [])

/-- ASCII whitespace stripped by Python's `str.strip()`. -/
def isPySpace (c : Char) : Bool :=
  c == ' ' || c == '\t' || c == '\n' || c == '\r' || c == '\x0b' || c == '\x0c'

/-- Python's `arg.strip()`: drop leading and trailing whitespace. -/
def pyStrip (s : String) : String :=
  ⟨((s.toList.dropWhile isPySpace).reverse.dropWhile isPySpace).reverse⟩

/-- `do_detect` (lines 80-88): strip the argument; on an empty path print
an error and return, otherwise run the pipeline.  The returned Bool is the
`cmd` stop flag: `false` means the command loop continues (the Python
method returns `None` on both paths).  It is a total function: no
exception, no exit. -/
def do_detect (arg : String) (dets : List Detection) : List CliEvent × Bool :=
  let image_path := pyStrip arg
  if image_path = "" then
    ([CliEvent.errorMsg "Please provide the image path."], false)
  else
    (handle_detection_events image_path dets, false)

/-- The maximum confidence over a detection list, folded from `m`
(spec-side notion used to characterise the reduction). -/
def foldMax (m : ℚ) (dets : List Detection) : ℚ :=
  dets.foldl (fun a d => max a d.confidence) m

/-- The class label of the earliest detection whose confidence equals the
maximum confidence of the list (spec-side notion from the claim about the
top pick). -/
def firstMaxLabel (dets : List Detection) : Option String :=
  (dets.find? (fun d => decide (d.confidence = foldMax 0 dets))).map
    Detection.class_label

end DroneWave

namespace DroneWave

/-! ### Helper lemmas -/

theorem foldMax_cons (m : ℚ) (d : Detection) (dets : List Detection) :
    foldMax m (d :: dets) = foldMax (max m d.confidence) dets := rfl

theorem le_foldMax (m : ℚ) (dets : List Detection) : m ≤ foldMax m dets := by
  induction dets generalizing m with
  | nil => exact le_refl m
  | cons d rest ih =>
    exact le_trans (le_max_left m d.confidence) (ih (max m d.confidence))

theorem topFold_fst (init : ℚ × Option String) (dets : List Detection) :
    (topFold init dets).1 = foldMax init.1 dets := by
  induction dets generalizing init with
  | nil => rfl
  | cons d rest ih =>
    show (topFold (topStep init d) rest).1 = _
    rw [ih (topStep init d), foldMax_cons]
    unfold topStep
    rcases lt_or_ge init.1 d.confidence with h | h
    · rw [if_pos h, max_eq_right h.le]
    · rw [if_neg (not_lt.mpr h), max_eq_left h]

theorem topFold_snd_of_eq (init : ℚ × Option String) (dets : List Detection)
    (h : foldMax init.1 dets = init.1) :
    (topFold init dets).2 = init.2 := by
  induction dets generalizing init with
  | nil => rfl
  | cons d rest ih =>
    rw [foldMax_cons] at h
    have hd : d.confidence ≤ init.1 := by
      have h1 : max init.1 d.confidence ≤ foldMax (max init.1 d.confidence) rest :=
        le_foldMax _ rest
      rw [h] at h1
      exact le_trans (le_max_right _ _) h1
    have hstep : topStep init d = init := by
      unfold topStep
      rw [if_neg (not_lt.mpr hd)]
    show (topFold (topStep init d) rest).2 = init.2
    rw [hstep]
    apply ih
    have : max init.1 d.confidence = init.1 := max_eq_left hd
    rw [this] at h
    exact h

theorem topFold_snd_of_lt (init : ℚ × Option String) (dets : List Detection)
    (h : init.1 < foldMax init.1 dets) :
    (topFold init dets).2 =
      (dets.find? (fun d => decide (d.confidence = foldMax init.1 dets))).map
        Detection.class_label := by
  induction dets generalizing init with
  | nil => exact absurd h (lt_irrefl _)
  | cons d rest ih =>
    rw [foldMax_cons] at h ⊢
    show (topFold (topStep init d) rest).2 = _
    rcases lt_or_ge init.1 d.confidence with hd | hd
    · -- the step fires: running state becomes (d.confidence, some d.class_label)
      have hstep : topStep init d = (d.confidence, some d.class_label) := by
        unfold topStep; rw [if_pos hd]
      rw [hstep]
      have hmax : max init.1 d.confidence = d.confidence := max_eq_right hd.le
      rw [hmax] at h ⊢
      rcases eq_or_lt_of_le (le_foldMax d.confidence rest) with heq | hlt
      · -- nothing in rest exceeds d.confidence: d itself is the first maximum
        rw [topFold_snd_of_eq _ rest heq.symm]
        rw [List.find?_cons_of_pos]
        · rfl
        · simp [← heq]
      · -- a later detection strictly exceeds d: recurse
        rw [ih _ hlt]
        rw [List.find?_cons_of_neg]
        simp only [decide_eq_true_eq]
        exact ne_of_lt hlt
    · -- the step does not fire
      have hstep : topStep init d = init := by
        unfold topStep; rw [if_neg (not_lt.mpr hd)]
      have hmax : max init.1 d.confidence = init.1 := max_eq_left hd
      rw [hmax] at h ⊢
      rw [hstep, ih _ h]
      rw [List.find?_cons_of_neg]
      simp only [decide_eq_true_eq]
      exact ne_of_lt (lt_of_le_of_lt hd h)

theorem foldMax_nonneg (dets : List Detection) : 0 ≤ foldMax 0 dets :=
  le_foldMax 0 dets

theorem foldMax_of_all_le (m : ℚ) (dets : List Detection)
    (h : ∀ d ∈ dets, d.confidence ≤ m) : foldMax m dets = m := by
  induction dets with
  | nil => rfl
  | cons d rest ih =>
    rw [foldMax_cons, max_eq_left (h d (List.mem_cons_self d rest))]
    exact ih fun d' hd' => h d' (List.mem_cons_of_mem d hd')

theorem foldMax_perm (dets₁ dets₂ : List Detection) (p : dets₁.Perm dets₂) :
    ∀ m : ℚ, foldMax m dets₁ = foldMax m dets₂ := by
  induction p with
  | nil => intro m; rfl
  | cons d _ ih =>
    intro m
    rw [foldMax_cons, foldMax_cons, ih]
  | swap d₁ d₂ l =>
    intro m
    rw [foldMax_cons, foldMax_cons, foldMax_cons, foldMax_cons, sup_right_comm]
  | trans _ _ ih₁ ih₂ =>
    intro m
    rw [ih₁, ih₂]

theorem round2_zero : round2 0 = 0 := by
  simp [round2]

theorem round2_intCast_div_100 (k : ℤ) : round2 ((k : ℚ) / 100) = (k : ℚ) / 100 := by
  unfold round2
  rw [div_mul_cancel₀ (k : ℚ) (by norm_num : (100 : ℚ) ≠ 0), round_intCast]

theorem lowerCode_idem (n : ℕ) : lowerCode (lowerCode n) = lowerCode n := by
  unfold lowerCode
  by_cases h : 65 ≤ n ∧ n ≤ 90
  · rw [if_pos h, if_neg (by omega)]
  · rw [if_neg h, if_neg h]

theorem toNat_ofNat_of_lower_range (m : ℕ) (h1 : 97 ≤ m) (h2 : m ≤ 122) :
    (Char.ofNat m).toNat = m := by
  interval_cases m <;> decide

theorem lowerChar_toNat (c : Char) : (lowerChar c).toNat = lowerCode c.toNat := by
  unfold lowerChar
  by_cases h : 65 ≤ c.toNat ∧ c.toNat ≤ 90
  · have hcode : lowerCode c.toNat = c.toNat + 32 := by unfold lowerCode; rw [if_pos h]
    rw [hcode]
    exact toNat_ofNat_of_lower_range _ (by omega) (by omega)
  · have hcode : lowerCode c.toNat = c.toNat := by unfold lowerCode; rw [if_neg h]
    rw [hcode, Char.ofNat_toNat]

theorem lowerChar_idem (c : Char) : lowerChar (lowerChar c) = lowerChar c := by
  show Char.ofNat (lowerCode (lowerChar c).toNat) = lowerChar c
  rw [lowerChar_toNat, lowerCode_idem]
  rfl

theorem pyLower_idem (s : String) : pyLower (pyLower s) = pyLower s := by
  show (⟨((⟨s.toList.map lowerChar⟩ : String).toList.map lowerChar)⟩ : String) =
    (⟨s.toList.map lowerChar⟩ : String)
  show (⟨(s.toList.map lowerChar).map lowerChar⟩ : String) = _
  rw [List.map_map]
  congr 1
  apply List.map_congr_left
  intro c _
  exact lowerChar_idem c

/-! ### Claim theorems -/

/-- C1, counterexample to the claim as stated: on the one-detection input
`[("a", confidence 0)]` the maximum confidence of the list is 0 and the
earliest detection attaining it is labelled "a", yet the extractor's
top_class is `none` (the strict `>` against the initial running maximum 0
never fires), so top_class is NOT the label of the earliest maximal
detection. -/
theorem c1_counterexample :
    firstMaxLabel [⟨"a", 0, [0, 0, 1, 1]⟩] = some "a" ∧
    (handle_detection_extract "img.png" [⟨"a", 0, [0, 0, 1, 1]⟩]).top_class = none ∧
    (handle_detection_extract "img.png" [⟨"a", 0, [0, 0, 1, 1]⟩]).top_class ≠
      firstMaxLabel [⟨"a", 0, [0, 0, 1, 1]⟩] :=
  ⟨by decide, by decide, by decide⟩

/-- C1 (amended): the extractor's running top pick starts from `(0, none)`
and is replaced only on strictly greater confidence; hence the final top
confidence is the running maximum (the fold of `max` from 0), and
top_class is the label of the earliest detection whose confidence equals
that maximum whenever the maximum is strictly positive, and `none`
otherwise (in particular on all-zero confidences). -/
theorem c1_top_pick_characterization (image_path : String) (dets : List Detection) :
    (topFold (0, none) dets).1 = foldMax 0 dets ∧
    (handle_detection_extract image_path dets).top_confidence = round2 (foldMax 0 dets) ∧
    (handle_detection_extract image_path dets).top_class =
      (if 0 < foldMax 0 dets then firstMaxLabel dets else none) := by
  have hfst : (topFold (0, none) dets).1 = foldMax 0 dets := topFold_fst (0, none) dets
  refine ⟨hfst, ?_, ?_⟩
  · show round2 (topFold (0, none) dets).1 = round2 (foldMax 0 dets)
    rw [hfst]
  · show (topFold (0, none) dets).2 = _
    by_cases h : 0 < foldMax 0 dets
    · rw [if_pos h]
      have hlt : (topFold ((0 : ℚ), (none : Option String)) dets).2 =
          (dets.find? (fun d => decide (d.confidence = foldMax 0 dets))).map
            Detection.class_label := topFold_snd_of_lt (0, none) dets h
      rw [hlt]
      rfl
    · rw [if_neg h]
      have h0 : foldMax 0 dets = 0 :=
        le_antisymm (not_lt.mp h) (foldMax_nonneg dets)
      exact topFold_snd_of_eq (0, none) dets h0

/-- C2: the dispatcher maps a null top class to no command; otherwise it
lower-cases the label and tests substring containment against "takeoff"
first and, only if absent, "land"; the first match wins (so "landtakeoff"
resolves to Takeoff), and a label containing neither substring yields no
command. -/
theorem c2_dispatch_branches :
    dispatch Option.none = VehicleCommand.None ∧
    (∀ s : String, pyContains "takeoff" (pyLower s) = true →
      dispatch (some s) = VehicleCommand.Takeoff) ∧
    (∀ s : String, pyContains "takeoff" (pyLower s) = false →
      pyContains "land" (pyLower s) = true →
      dispatch (some s) = VehicleCommand.Land) ∧
    (∀ s : String, pyContains "takeoff" (pyLower s) = false →
      pyContains "land" (pyLower s) = false →
      dispatch (some s) = VehicleCommand.None) ∧
    dispatch (some "landtakeoff") = VehicleCommand.Takeoff := by
  refine ⟨rfl, ?_, ?_, ?_, by decide⟩
  · intro s h
    simp [dispatch, h]
  · intro s h1 h2
    simp [dispatch, h1, h2]
  · intro s h1 h2
    simp [dispatch, h1, h2]

/-- C2 witness: the three dispatcher branches at concrete labels
"landtakeoff" (both tokens, Takeoff wins), "land", and "hover". -/
theorem c2_witness :
    pyContains "takeoff" (pyLower "landtakeoff") = true ∧
    dispatch (some "landtakeoff") = VehicleCommand.Takeoff ∧
    pyContains "takeoff" (pyLower "land") = false ∧
    pyContains "land" (pyLower "land") = true ∧
    dispatch (some "land") = VehicleCommand.Land ∧
    pyContains "takeoff" (pyLower "hover") = false ∧
    pyContains "land" (pyLower "hover") = false ∧
    dispatch (some "hover") = VehicleCommand.None :=
  ⟨by decide, c2_dispatch_branches.2.1 "landtakeoff" (by decide),
   by decide, by decide, c2_dispatch_branches.2.2.1 "land" (by decide) (by decide),
   by decide, by decide, c2_dispatch_branches.2.2.2.1 "hover" (by decide) (by decide)⟩

/-- C3: on the empty detection sequence the report has an empty
detections list, a null top class and top confidence 0; the dispatcher
issues no command and the event trace is just the printed report. -/
theorem c3_empty_input (image_path : String) :
    handle_detection_extract image_path [] =
      { image := image_path, detections := [], top_class := none, top_confidence := 0 } ∧
    dispatch (handle_detection_extract image_path []).top_class = VehicleCommand.None ∧
    handle_detection_events image_path [] =
      [CliEvent.printedReport (handle_detection_extract image_path [])] := by
  refine ⟨?_, rfl, rfl⟩
  simp [handle_detection_extract, topFold, round2_zero]

/-- C4: the report's final top confidence is invariant under permutation
of the detection list, while the reported top class can differ between
permutations when distinct labels tie at the maximal confidence. -/
theorem c4_top_confidence_perm_invariant :
    (∀ (image_path : String) (dets₁ dets₂ : List Detection), dets₁.Perm dets₂ →
      (handle_detection_extract image_path dets₁).top_confidence =
        (handle_detection_extract image_path dets₂).top_confidence) ∧
    (∃ (image_path : String) (dets₁ dets₂ : List Detection), dets₁.Perm dets₂ ∧
      (handle_detection_extract image_path dets₁).top_class ≠
        (handle_detection_extract image_path dets₂).top_class) := by
  constructor
  · intro image_path dets₁ dets₂ hp
    show round2 (topFold (0, none) dets₁).1 = round2 (topFold (0, none) dets₂).1
    rw [topFold_fst, topFold_fst, foldMax_perm dets₁ dets₂ hp]
  · exact ⟨"img.png", [⟨"a", 1, [0, 0, 1, 1]⟩, ⟨"b", 1, [0, 0, 1, 1]⟩],
      [⟨"b", 1, [0, 0, 1, 1]⟩, ⟨"a", 1, [0, 0, 1, 1]⟩], by decide, by decide⟩

/-- C4 witness: the permutation-invariance of the final top confidence at
a concrete two-detection list and its reversal. -/
theorem c4_witness :
    ([(⟨"x", 1, [0, 0, 1, 1]⟩ : Detection), ⟨"y", 2, [1, 1, 2, 2]⟩]).Perm
      [⟨"y", 2, [1, 1, 2, 2]⟩, ⟨"x", 1, [0, 0, 1, 1]⟩] ∧
    (handle_detection_extract "w.png"
        [⟨"x", 1, [0, 0, 1, 1]⟩, ⟨"y", 2, [1, 1, 2, 2]⟩]).top_confidence =
      (handle_detection_extract "w.png"
        [⟨"y", 2, [1, 1, 2, 2]⟩, ⟨"x", 1, [0, 0, 1, 1]⟩]).top_confidence :=
  ⟨by decide, c4_top_confidence_perm_invariant.1 "w.png" _ _ (by decide)⟩

/-- C5: the dispatcher is a (pure, total) function of the lower-cased top
class and is case-insensitive: dispatching a label equals dispatching its
lower-casing; in particular "TakeOff", "takeoff-gesture" and "TAKEOFF_9"
all map to Takeoff. -/
theorem c5_dispatch_case_insensitive :
    (∀ s : String, dispatch (some s) = dispatch (some (pyLower s))) ∧
    dispatch (some "TakeOff") = VehicleCommand.Takeoff ∧
    dispatch (some "takeoff-gesture") = VehicleCommand.Takeoff ∧
    dispatch (some "TAKEOFF_9") = VehicleCommand.Takeoff := by
  refine ⟨?_, by decide, by decide, by decide⟩
  intro s
  simp only [dispatch, pyLower_idem]

/-- C6: in the event trace of every successful detect invocation, the
printed report is the first event, and every vehicle-link action occurs
strictly after it. -/
theorem c6_report_before_commands (image_path : String) (dets : List Detection) :
    (handle_detection_events image_path dets).head? =
      some (CliEvent.printedReport (handle_detection_extract image_path dets)) ∧
    ∀ (i : ℕ) (a : DroneAction),
      (handle_detection_events image_path dets)[i]? =
        some (CliEvent.droneAction a) → 0 < i := by
  refine ⟨rfl, ?_⟩
  intro i a h
  cases i with
  | zero =>
    have h0 : (handle_detection_events image_path dets)[0]? =
        some (CliEvent.printedReport (handle_detection_extract image_path dets)) := by
      simp [handle_detection_events]
    rw [h0] at h
    exact absurd h (by simp)
  | succ n => exact Nat.succ_pos n

/-- C6 witness: on a concrete takeoff detection, the first vehicle action
(arming) sits at index 1 of the trace, after the report at index 0. -/
theorem c6_witness :
    (handle_detection_events "t.png" [⟨"takeoff", 1, [0, 0, 1, 1]⟩])[1]? =
      some (CliEvent.droneAction DroneAction.arm) ∧ 0 < 1 :=
  ⟨by decide, (c6_report_before_commands "t.png" [⟨"takeoff", 1, [0, 0, 1, 1]⟩]).2 1
    DroneAction.arm (by decide)⟩

/-- C7: when the stripped detect argument is empty, `do_detect` only
prints the user-facing error message — the pipeline is not invoked (no
report, no vehicle action) — and the returned stop flag is `false`, so
the command loop continues; the function is total, so no exception and no
exit. -/
theorem c7_missing_path (arg : String) (dets : List Detection)
    (h : pyStrip arg = "") :
    do_detect arg dets = ([CliEvent.errorMsg "Please provide the image path."], false) := by
  simp [do_detect, h]

/-- C7 witness: a whitespace-only argument triggers the error branch. -/
theorem c7_witness :
    pyStrip "   " = "" ∧
    do_detect "   " [⟨"takeoff", 1, [0, 0, 1, 1]⟩] =
      ([CliEvent.errorMsg "Please provide the image path."], false) :=
  ⟨by decide, c7_missing_path "   " [⟨"takeoff", 1, [0, 0, 1, 1]⟩] (by decide)⟩

/-- C8: rounding to two decimal places, as applied to every reported
confidence and bounding-box coordinate, is idempotent. -/
theorem c8_round2_idempotent (x : ℚ) : round2 (round2 x) = round2 x :=
  round2_intCast_div_100 (round (x * 100))

/-- C9: on a non-empty input whose detections all have confidence exactly
0, the strict comparison against the initial running maximum 0 never
fires: the report's detections list is non-empty, yet top_class is null,
top_confidence is 0, and no vehicle command is issued. -/
theorem c9_all_zero_confidence (image_path : String) (dets : List Detection)
    (hne : dets ≠ []) (hzero : ∀ d ∈ dets, d.confidence = 0) :
    (handle_detection_extract image_path dets).detections ≠ [] ∧
    (handle_detection_extract image_path dets).top_class = none ∧
    (handle_detection_extract image_path dets).top_confidence = 0 ∧
    handle_detection_events image_path dets =
      [CliEvent.printedReport (handle_detection_extract image_path dets)] := by
  have hmax : foldMax 0 dets = 0 :=
    foldMax_of_all_le 0 dets (fun d hd => le_of_eq (hzero d hd))
  have hsnd : (topFold ((0 : ℚ), (none : Option String)) dets).2 = none :=
    topFold_snd_of_eq (0, none) dets hmax
  have hfst : (topFold ((0 : ℚ), (none : Option String)) dets).1 = foldMax 0 dets :=
    topFold_fst (0, none) dets
  have htc : (handle_detection_extract image_path dets).top_class = none := hsnd
  refine ⟨?_, htc, ?_, ?_⟩
  · show dets.map reportDetection ≠ []
    simpa using hne
  · show round2 (topFold (0, none) dets).1 = 0
    rw [hfst, hmax, round2_zero]
  · have hd : dispatch (handle_detection_extract image_path dets).top_class =
        VehicleCommand.None := by rw [htc]; rfl
    simp [handle_detection_events, hd]

/-- C9 witness: one detection with confidence 0 yields a non-empty report
with a null top class and no vehicle action. -/
theorem c9_witness :
    ([(⟨"zero", 0, [0, 0, 1, 1]⟩ : Detection)] ≠ []) ∧
    (∀ d ∈ [(⟨"zero", 0, [0, 0, 1, 1]⟩ : Detection)], d.confidence = 0) ∧
    (handle_detection_extract "z.png" [⟨"zero", 0, [0, 0, 1, 1]⟩]).top_class = none ∧
    handle_detection_events "z.png" [⟨"zero", 0, [0, 0, 1, 1]⟩] =
      [CliEvent.printedReport
        (handle_detection_extract "z.png" [⟨"zero", 0, [0, 0, 1, 1]⟩])] := by
  have h := c9_all_zero_confidence "z.png" [⟨"zero", 0, [0, 0, 1, 1]⟩]
    (by decide) (by decide)
  exact ⟨by decide, by decide, h.2.1, h.2.2.2⟩

/-- C10: whenever dispatch resolves to Takeoff, the trace after the
printed report is exactly the fixed sequence arm, set takeoff altitude to
the hard-coded 10 meters, takeoff, then the fixed 10-second pause — for
every input, so the altitude never depends on the detections or the image
path. -/
theorem c10_takeoff_sequence_fixed (image_path : String) (dets : List Detection)
    (h : dispatch (handle_detection_extract image_path dets).top_class =
      VehicleCommand.Takeoff) :
    handle_detection_events image_path dets =
      CliEvent.printedReport (handle_detection_extract image_path dets) ::
        takeoffSeq.map CliEvent.droneAction ∧
    takeoffSeq = [DroneAction.arm, DroneAction.set_takeoff_altitude 10,
      DroneAction.takeoff, DroneAction.sleep 10] := by
  refine ⟨?_, rfl⟩
  simp [handle_detection_events, h]

/-- C10 witness: a concrete takeoff detection yields exactly the fixed
arm / set-altitude-10 / takeoff / pause trace after the report. -/
theorem c10_witness :
    dispatch (handle_detection_extract "t2.png"
      [⟨"TakeOff_Gesture", 1, [0, 0, 1, 1]⟩]).top_class = VehicleCommand.Takeoff ∧
    handle_detection_events "t2.png" [⟨"TakeOff_Gesture", 1, [0, 0, 1, 1]⟩] =
      CliEvent.printedReport (handle_detection_extract "t2.png"
        [⟨"TakeOff_Gesture", 1, [0, 0, 1, 1]⟩]) :: takeoffSeq.map CliEvent.droneAction :=
  ⟨by decide, (c10_takeoff_sequence_fixed "t2.png"
    [⟨"TakeOff_Gesture", 1, [0, 0, 1, 1]⟩] (by decide)).1⟩

end DroneWave
